import Mathlib

/-!
Shallow embedding of the query-parameter compiler and mutation helpers of
`nefertari_sqla` (file `nefertari_sqla/documents.py`), together with the
external `nefertari.utils` helpers it calls.  Python values that flow through
parameter bags and rows are modelled by the inductive `Value`; Python dicts by
insertion-ordered association lists; exceptions by the `Except` monad with the
`PyErr` error type.  Functions keep the source's names where Lean allows it.
-/

namespace NefertariSqla

/-- Scalar and list values as they occur in nefertari parameter bags and in
database rows: integers, strings, booleans, `None`, and lists of strings
(comma-split parameter values and the contents of list-typed columns). -/
inductive Value where
  | vInt (n : Int)
  | vStr (s : String)
  | vBool (b : Bool)
  | vNone
  | vStrList (l : List String)
deriving DecidableEq, Repr

/-- Decidable equality for `Except` results, used to evaluate concrete
scenarios inside proofs. -/
instance exceptDecEq {ε α : Type} [DecidableEq ε] [DecidableEq α] :
    DecidableEq (Except ε α) := fun x y =>
  match x, y with
  | .ok a, .ok b =>
    if h : a = b then isTrue (by rw [h]) else isFalse (fun hc => h (Except.ok.inj hc))
  | .error a, .error b =>
    if h : a = b then isTrue (by rw [h]) else isFalse (fun hc => h (Except.error.inj hc))
  | .ok _, .error _ => isFalse (fun hc => Except.noConfusion hc)
  | .error _, .ok _ => isFalse (fun hc => Except.noConfusion hc)

/-- A parameter bag: a Python dict keyed by strings, modelled as an
insertion-ordered association list with (by convention) unique keys. -/
abbrev Params := List (String × Value)

/-- A database row / loaded record: field name to value. -/
abbrev Row := List (String × Value)

/-- Lookup of a key in a dict (first matching entry). -/
def rowLookup (r : Row) (k : String) : Option Value :=
  (r.find? (fun kv => kv.1 == k)).map (fun kv => kv.2)

/-- Membership test `k in d` on a Python dict. -/
def pyHasKey (r : Row) (k : String) : Bool :=
  r.any (fun kv => kv.1 == k)

/-- Python dict item assignment `d[k] = v`: replaces in place when the key is
present, otherwise appends (insertion order). -/
def pySetKey (r : Row) (k : String) (v : Value) : Row :=
  if pyHasKey r k then r.map (fun kv => if kv.1 == k then (k, v) else kv)
  else r ++ [(k, v)]

/-- Python `d.pop(k, ...)` key removal part / `del d[k]`. -/
def pyDelKey (r : Row) (k : String) : Row :=
  r.filter (fun kv => kv.1 != k)

/-- Python `d.pop(k, default)`: the value (or default) and the remaining dict. -/
def pyPop (p : Params) (k : String) (dflt : Value) : Value × Params :=
  ((rowLookup p k).getD dflt, pyDelKey p k)

/-- Python `d.setdefault(k, v)`. -/
def pySetDefault (p : Params) (k : String) (v : Value) : Params :=
  if pyHasKey p k then p else p ++ [(k, v)]

/-- Python truthiness of a `Value`. -/
def pyTruthy : Value → Bool
  | .vInt n => n != 0
  | .vStr s => s != ""
  | .vBool b => b
  | .vNone => false
  | .vStrList l => !l.isEmpty

/-- Python `str()` of a `Value` (as used for primary keys in `to_dict`). -/
def pyStr : Value → String
  | .vInt n => toString n
  | .vStr s => s
  | .vBool b => if b then "True" else "False"
  | .vNone => "None"
  | .vStrList l => String.intercalate ", " l

/-- Characters stripped by Python `f.strip('-+')`. -/
def isSortMark (c : Char) : Bool := c == '-' || c == '+'

/-- Python `f.strip('-+')`: removes leading and trailing `-`/`+` characters. -/
def pyStripMarks (s : String) : String :=
  String.mk (((s.data.dropWhile isSortMark).reverse.dropWhile isSortMark).reverse)

/-- Python `s.startswith(pre)`. -/
def strStarts (s pre : String) : Bool := pre.data.isPrefixOf s.data

/-- Python `s[n:]`. -/
def strDropN (s : String) (n : Nat) : String := String.mk (s.data.drop n)

/-- Whitespace for Python `str.strip()`. -/
def isPySpace (c : Char) : Bool := c == ' ' || c == '\t' || c == '\n' || c == '\r'

/-- Python `s.strip()`. -/
def pyTrim (s : String) : String :=
  String.mk (((s.data.dropWhile isPySpace).reverse.dropWhile isPySpace).reverse)

/-- Characters before the first `__`, the scanner behind `f.split('__')[0]`. -/
def baseChars : List Char → List Char
  | [] => []
  | '_' :: '_' :: _ => []
  | c :: cs => c :: baseChars cs

/-- Characters after the first `__`, the scanner behind `k.partition('__')[2]`. -/
def sufChars : List Char → List Char
  | [] => []
  | '_' :: '_' :: rest => rest
  | _ :: cs => sufChars cs

/-- Python `f.split('__')[0]`: the field name before the first `__` suffix. -/
def fieldBase (f : String) : String := String.mk (baseChars f.data)

/-- The text after the first `__` in a key, as in `k.partition('__')[2]`. -/
def fieldSuffix (k : String) : String := String.mk (sufChars k.data)

/-- Splitting a character list on commas, the scanner behind `s.split(',')`. -/
def splitCommaAux : List Char → List Char → List String
  | [], acc => [String.mk acc.reverse]
  | c :: cs, acc =>
    if c == ',' then String.mk acc.reverse :: splitCommaAux cs []
    else splitCommaAux cs (c :: acc)

/-- Decimal digits to a number; `none` on any non-digit character. -/
def digitsToNat (acc : Nat) : List Char → Option Nat
  | [] => some acc
  | c :: cs => if c.isDigit then digitsToNat (acc * 10 + (c.toNat - 48)) cs else none

/-- Python `int(s)` as far as the storage cast needs it: an optional sign
followed by decimal digits; anything else fails. -/
def pyToInt (s : String) : Option Int :=
  match s.data with
  | [] => none
  | '-' :: rest =>
    if rest.isEmpty then none else (digitsToNat 0 rest).map (fun n => -(n : Int))
  | '+' :: rest =>
    if rest.isEmpty then none else (digitsToNat 0 rest).map (fun n => (n : Int))
  | l => (digitsToNat 0 l).map (fun n => (n : Int))

/-- Python `s.lower()`. -/
def pyLower (s : String) : String := String.mk (s.data.map Char.toLower)

/-- Lexicographic comparison of character lists by code point. -/
def strLeList : List Char → List Char → Bool
  | [], _ => true
  | _ :: _, [] => false
  | a :: as, b :: bs => if a = b then strLeList as bs else decide (a.toNat < b.toNat)

/-- Lexicographic string comparison, the order behind Python `sorted`. -/
def strLe (a b : String) : Bool := strLeList a.data b.data

/-- Integer reading of a parameter value (`int(...)` on limit/page/start
parameters); `none` models Python `None`. -/
def valToOptInt : Value → Option Int
  | .vInt n => some n
  | .vStr s => pyToInt s
  | _ => none

/-- Does the character list `l` contain `pat` as a contiguous segment. -/
def hasSubList (pat : List Char) : List Char → Bool
  | [] => pat.isEmpty
  | c :: cs => pat.isPrefixOf (c :: cs) || hasSubList pat cs

/-- Python substring test `sub in s`. -/
def strContainsSub (s sub : String) : Bool := hasSubList sub.data s.data

/-- Python `sorted(...)` over strings (lexicographic, stable). -/
def sortStrings (l : List String) : List String :=
  List.insertionSort (fun a b => strLe a b = true) l

/-- Declared column kinds of the model schema, as far as the compiler
distinguishes them: integer and string and boolean scalars, list-typed columns
(`ListField`, with their `is_postgresql` flag) and map-typed columns
(`DictField`). -/
inductive ColKind where
  | intCol
  | strCol
  | boolCol
  | listCol (isPostgres : Bool)
  | dictCol
deriving DecidableEq, Repr

/-- A mapped model class: its name, its mapped columns (ordered, with kinds),
the primary-key column name, and its relationship field names. -/
structure SqlaModel where
  clsName : String
  cols : List (String × ColKind)
  pk : String
  relationships : List String
deriving DecidableEq, Repr

/-- Column kind of a model field, `columns.get(key)`. -/
def lookupCol (m : SqlaModel) (k : String) : Option ColKind :=
  (m.cols.find? (fun c => c.1 == k)).map (fun c => c.2)

/-- BaseMixin.native_fields: mapped column names plus relationship names. -/
def native_fields (m : SqlaModel) : List String :=
  m.cols.map (fun c => c.1) ++ m.relationships

/-- BaseMixin.fields_to_query: the fixed directive names plus the native
fields.  The source wraps this in `list(set(...))`; only membership in the
result is ever used, so the deduplication is immaterial here. -/
def fields_to_query (m : SqlaModel) : List String :=
  ["id", "_limit", "_page", "_sort", "_fields", "_count", "_start"] ++ native_fields m

/-- Storage-layer (SQLAlchemy) exceptions that reach this module. -/
inductive StorageErr where
  | dataError (msg : String)
  | integrityError (msg : String)
  | invalidRequestError (msg : String)
  | otherError (msg : String)
deriving DecidableEq, Repr

/-- Message text of a storage error, `str(ex)`. -/
def storageMsg : StorageErr → String
  | .dataError m => m
  | .integrityError m => m
  | .invalidRequestError m => m
  | .otherError m => m

/-- Raised errors: the nefertari JHTTP error classes, a plain Python
`Exception`, and storage errors propagating uncaught. -/
inductive PyErr where
  | badRequest (msg : String) (extraData : Option StorageErr)
  | notFound (msg : String)
  | conflict (msg : String) (extraData : Option StorageErr)
  | exc (msg : String)
  | storage (e : StorageErr)
deriving DecidableEq, Repr

/-- Modelled from the spec: the external helper `_split` of the `nefertari`
package (not part of this repository), which decodes a sort/fields parameter
into a list of names: a comma-separated string is split and trimmed, a list is
taken as is. -/
def pySplitVal : Value → List String
  | .vStr s => if s == "" then [] else (splitCommaAux s.data []).map pyTrim
  | .vStrList l => l
  | _ => []

/-- Modelled from the spec: the external helper `process_fields` of the
`nefertari` package: splits a fields list into names to include and names to
exclude, an exclusion being marked by a leading `-`. -/
def process_fields (fields : List String) : List String × List String :=
  (fields.filter (fun f => !strStarts f "-"),
   (fields.filter (fun f => strStarts f "-")).map (fun f => strDropN f 1))

/-- Modelled from the spec: the external helper `process_limit` of the
`nefertari` package resolves page/start/limit into a concrete offset and
limit; page-number and explicit start are mutually exclusive and offset
defaults to 0 when both are absent. -/
def process_limit (start page : Option Int) (limit : Int) : Int × Int :=
  match start, page with
  | some s, _ => (s, limit)
  | none, some p => (p * limit, limit)
  | none, none => (0, limit)

/-- Modelled from the spec: the reserved directive keys dropped by the external
helper `drop_reserved_params` of the `nefertari` package. -/
def reservedParamNames : List String :=
  ["_limit", "_page", "_start", "_sort", "_fields", "_count", "_explain",
   "_raise_on_empty", "_search_fields", "_refresh_index"]

/-- Modelled from the spec: the external helper `drop_reserved_params` of the
`nefertari` package removes reserved directive keys from a parameter bag. -/
def drop_reserved_params (params : Params) : Params :=
  params.filter (fun kv => !reservedParamNames.contains kv.1)

/-- Modelled from the spec: the truthy-string reading of the external
`dictset.pop_bool_param` helper of the `nefertari` package. -/
def parseBoolStr (v : Value) : Bool :=
  match v with
  | .vStr s => pyLower s == "true" || pyLower s == "1"
  | .vBool b => b
  | _ => false

/-- process_lists: for keys of the form `name__in` / `name__all`, the value is
coerced into a list (`dictset.aslist`, comma-splitting a string value). -/
def process_lists (params : Params) : Params :=
  params.map (fun kv =>
    if fieldSuffix kv.1 == "in" || fieldSuffix kv.1 == "all" then
      (kv.1, Value.vStrList (pySplitVal kv.2))
    else kv)

/-- process_bools: for keys of the form `name__bool`, the suffix is dropped
and the value replaced by the parsed boolean. -/
def process_bools (params : Params) : Params :=
  params.map (fun kv =>
    if fieldSuffix kv.1 == "bool" then (fieldBase kv.1, Value.vBool (parseBoolStr kv.2))
    else kv)

/-- A live query object: the rows currently selected and, after field
projection, the selected column names (`with_entities`); `none` means the full
entity is selected. -/
structure Query where
  rows : List Row
  entities : Option (List String) := none
deriving DecidableEq, Repr

/-- A relational containment expression produced by `_pop_iterables` for a
list-typed column: `field_obj.contains(val)`, with `wrapped` recording whether
the scalar value was wrapped in a single-element list for a native
postgresql ARRAY column. -/
inductive IterExpr where
  | contains (field : String) (val : Value) (wrapped : Bool)
deriving DecidableEq, Repr

/-- Evaluation of a containment expression on one row: the list column holds
the value (or every value of a list value). -/
def evalIterExpr (e : IterExpr) (r : Row) : Bool :=
  match e with
  | .contains f v _ =>
    match (rowLookup r f).getD .vNone, v with
    | .vStrList l, .vStr s => l.contains s
    | .vStrList l, .vStrList vs => vs.all (fun s => l.contains s)
    | _, _ => false

/-- Filtering by the containment expressions, `query_set.from_self().filter(expr)`
applied per expression. -/
def applyIterExprs (exprs : List IterExpr) (rows : List Row) : List Row :=
  exprs.foldl (fun rs e => rs.filter (evalIterExpr e)) rows

/-- BaseMixin._pop_iterables, the collection pass over the parameter items: a
`ListField` key yields a containment expression (its value wrapped in a list
when the column uses the native postgresql ARRAY type), a `DictField` key
raises `Exception('DictField database querying is not supported')`, any other
key is skipped. -/
def popIterablesAux (m : SqlaModel) : Params → Except PyErr (List (String × IterExpr))
  | [] => .ok []
  | (k, v) :: rest =>
    match lookupCol m k with
    | some (.listCol pg) =>
      match popIterablesAux m rest with
      | .error e => .error e
      | .ok tail => .ok ((k, .contains k v pg) :: tail)
    | some .dictCol => .error (.exc "DictField database querying is not supported")
    | _ => popIterablesAux m rest

/-- BaseMixin._pop_iterables: pops iterable-field parameters and returns the
generated expressions together with the remaining parameters. -/
def _pop_iterables (m : SqlaModel) (params : Params) : Except PyErr (List IterExpr × Params) :=
  match popIterablesAux m params with
  | .error e => .error e
  | .ok its =>
    .ok (its.map (fun kv => kv.2),
         params.filter (fun kv => !(its.map (fun it => it.1)).contains kv.1))

/-- The string names `set(fields) - fields_to_query` holds after the excess
check: suffix-stripped requested names that the model does not allow, listed
here in first-occurrence order (a Python set fixes no order; theorems below
quantify over the enumeration order where it matters). -/
def excessFields (m : SqlaModel) (fields : List String) : List String :=
  ((fields.map fieldBase).dedup).filter (fun f => !(fields_to_query m).contains f)

/-- BaseMixin.check_fields_allowed with the set-enumeration order made
explicit: `σ` stands for the order in which CPython happens to iterate the
set of excess names when joining them into the message (the source applies no
sorting). -/
def check_fields_allowed_iter (σ : List String → List String) (m : SqlaModel)
    (fields : List String) : Except PyErr Unit :=
  let stripped := fields.map fieldBase
  if stripped.all (fun f => (fields_to_query m).contains f) then .ok ()
  else
    .error (.badRequest
      ("'" ++ m.clsName ++ "' object does not have fields: " ++
        String.intercalate ", " (σ (excessFields m fields))) none)

/-- BaseMixin.check_fields_allowed, with the set enumerated in
first-occurrence order. -/
def check_fields_allowed (m : SqlaModel) (fields : List String) : Except PyErr Unit :=
  check_fields_allowed_iter id m fields

/-- BaseMixin.filter_fields: drops parameters whose suffix-stripped name is
not a queryable field. -/
def filter_fields (m : SqlaModel) (params : Params) : Params :=
  params.filter (fun kv => (fields_to_query m).contains (fieldBase kv.1))

/-- BaseMixin.apply_fields: narrows the selected columns to the inclusion list
(or all native fields) minus the exclusion list, plus the primary key, sorted
and deduplicated; an empty directive, or an effective set that becomes empty,
leaves the query unmodified.  The `InvalidRequestError` branch of the source
cannot arise in this model, where `with_entities` is total. -/
def apply_fields (m : SqlaModel) (q : Query) (_fields : List String) : Query :=
  let fo := (process_fields _fields).1
  let fe := (process_fields _fields).2
  if fo.isEmpty && fe.isEmpty then q
  else
    let fields_only := if fo.isEmpty then native_fields m else fo
    let fields_only :=
      if !fe.isEmpty then fields_only.filter (fun f => !fe.contains f) else fields_only
    if !fields_only.isEmpty then
      { q with entities := some (sortStrings (fields_only ++ [m.pk]).dedup) }
    else q

/-- Ordering used when sorting rows on one column. -/
def valueLe : Value → Value → Bool
  | .vInt a, .vInt b => a ≤ b
  | .vStr a, .vStr b => strLe a b
  | .vBool a, .vBool b => !a || b
  | _, _ => true

/-- Stable sort of rows on one column, descending when `desc` is set. -/
def sortRowsBy (key : String) (desc : Bool) (rows : List Row) : List Row :=
  List.insertionSort
    (fun r₁ r₂ =>
      let a := (rowLookup r₁ key).getD .vNone
      let b := (rowLookup r₂ key).getD .vNone
      if desc then valueLe b a else valueLe a b)
    rows

/-- BaseMixin.apply_sort: `order_by` over the sort tokens, a leading `-`
meaning descending; later tokens act as tie-breaks, realised here by stably
sorting from the last token to the first. -/
def apply_sort (q : Query) (_sort : List String) : Query :=
  if _sort.isEmpty then q
  else
    let sortedRows :=
      _sort.reverse.foldl
        (fun rs t =>
          if strStarts t "-" then sortRowsBy (strDropN t 1) true rs
          else sortRowsBy t false rs)
        q.rows
    { q with rows := sortedRows }

/-- The storage engine's typed comparison between a column value and a filter
value: matching scalar types compare directly; a string literal against an
integer column is cast, and a non-numeric string raises `DataError` (the
type-mismatch error documented on `get_collection`); other combinations
compare unequal. -/
def compareVals (rowVal paramVal : Value) : Except StorageErr Bool :=
  match rowVal, paramVal with
  | .vInt a, .vInt b => .ok (a == b)
  | .vStr a, .vStr b => .ok (a == b)
  | .vBool a, .vBool b => .ok (a == b)
  | .vNone, .vNone => .ok true
  | .vStrList a, .vStrList b => .ok (a == b)
  | .vInt a, .vStr s =>
    match pyToInt s with
    | some b => .ok (a == b)
    | none => .error (.dataError ("invalid input syntax for integer: " ++ s))
  | _, _ => .ok false

/-- Whether one row satisfies every equality filter of the parameter bag. -/
def rowSatisfies (params : Params) (r : Row) : Except StorageErr Bool :=
  match params with
  | [] => .ok true
  | (k, v) :: rest =>
    match compareVals ((rowLookup r k).getD .vNone) v with
    | .error e => .error e
    | .ok b =>
      match rowSatisfies rest r with
      | .error e => .error e
      | .ok b₂ => .ok (b && b₂)

/-- query_set.filter_by(**params): the rows matching every equality filter;
a type mismatch while evaluating surfaces as a `DataError`. -/
def filter_by (params : Params) : List Row → Except StorageErr (List Row)
  | [] => .ok []
  | r :: rs =>
    match rowSatisfies params r with
    | .error e => .error e
    | .ok b =>
      match filter_by params rs with
      | .error e => .error e
      | .ok rest => .ok (if b then r :: rest else rest)

/-- Deterministic stand-in for the Python repr of the residual parameter dict
in error messages. -/
def fmtParams (params : Params) : String :=
  String.intercalate ", " (params.map (fun kv => kv.1 ++ "=" ++ pyStr kv.2))

/-- Textual form of the compiled query, `str(query_set)` with newlines
removed, abstracted to a deterministic rendering. -/
def renderSQL (m : SqlaModel) (q : Query) : String :=
  "SELECT " ++ String.intercalate ", " (q.entities.getD [m.clsName]) ++
    " FROM " ++ m.clsName

/-- BaseMixin.add_field_names: converts the projected result tuples into
dicts keyed by the selected column names plus `_type`, then sets `_pk` to the
primary-key entry's value and removes the raw primary-key entry unless it was
explicitly requested. -/
def addFieldPk (m : SqlaModel) (requested_fields : List String) (obj : Row) : Row :=
  if pyHasKey obj m.pk then
    let obj := pySetKey obj "_pk" ((rowLookup obj m.pk).getD .vNone)
    if !requested_fields.contains m.pk then pyDelKey obj m.pk else obj
  else obj

/-- BaseMixin.add_field_names, the whole conversion over a query's rows. -/
def add_field_names (m : SqlaModel) (q : Query) (requested_fields : List String) : List Row :=
  let cols := q.entities.getD [m.clsName]
  q.rows.map (fun r =>
    addFieldPk m requested_fields
      ((cols ++ ["_type"]).zip (cols.map (fun c => (rowLookup r c).getD .vNone) ++
        [Value.vStr m.clsName])))

/-- Result metadata attached to the returned collection,
`query_set._nefertari_meta`. -/
structure NefMeta where
  total : Nat
  start : Option Int
  fields : List String
deriving DecidableEq, Repr

/-- The four result shapes of get_collection: a count, an explain string, a
query with metadata, or field-projected mappings with metadata. -/
inductive GCResult where
  | countResult (n : Nat)
  | explainResult (sql : String)
  | queryResult (q : Query) (meta : NefMeta)
  | fieldsResult (maps : List Row) (meta : NefMeta)
deriving DecidableEq, Repr

/-- Outcome of the `try` block of get_collection before the error
translation: a count, or the paginated query with the pre-pagination total
and the effective offset. -/
inductive GCPhase where
  | countPhase (n : Nat)
  | queryPhase (q : Query) (total : Nat) (start : Option Int)
deriving DecidableEq, Repr

/-- Errors escaping the `try` block: a storage `DataError` (translated by the
`except` clause) or an already-formed HTTP error (raised through). -/
inductive TryErr where
  | data (e : StorageErr)
  | http (e : PyErr)
deriving DecidableEq, Repr

/-- The `try` block of BaseMixin.get_collection: equality filtering, the
containment expressions, the pre-pagination total (returned directly in count
mode), field projection, sorting, offset/limit when a limit was supplied, and
the raise-on-empty check. -/
def gc_try (m : SqlaModel) (qs : Query) (params : Params) (exprs : List IterExpr)
    (countMode : Bool) (_fields _sort : List String) (limitV pageV startV : Value)
    (raiseOnEmpty : Bool) : Except TryErr GCPhase :=
  match filter_by params qs.rows with
  | .error e => .error (.data e)
  | .ok rows =>
    let rows := applyIterExprs exprs rows
    let _total := rows.length
    if countMode then .ok (.countPhase _total)
    else
      let q := apply_fields m { qs with rows := rows } _fields
      let q := apply_sort q _sort
      let stepped :=
        match valToOptInt limitV with
        | some lim =>
          let sl := process_limit (valToOptInt startV) (valToOptInt pageV) lim
          ({ q with rows := (q.rows.drop sl.1.toNat).take sl.2.toNat }, some sl.1)
        | none => (q, valToOptInt startV)
      if stepped.1.rows.length == 0 && raiseOnEmpty then
        .error (.http (.notFound
          ("'" ++ m.clsName ++ "(" ++ fmtParams params ++ ")' resource not found")))
      else .ok (.queryPhase stepped.1 _total stepped.2)

/-- The tail of BaseMixin.get_collection after the `try` block: the `except
DataError` clause translates the storage error to not-found on a single-item
request and to bad-request (carrying the original error) otherwise; an HTTP
error raised inside the block passes through; a count is returned directly;
otherwise explain mode returns the SQL text, a fields request converts the
tuples, and the query is returned with its metadata. -/
def gc_translate (m : SqlaModel) (itemRequest : Bool) (params : Params)
    (explainMode : Bool) (_fields : List String) :
    Except TryErr GCPhase → Except PyErr GCResult
  | .error (.data e) =>
    if itemRequest then
      .error (.notFound
        ("'" ++ m.clsName ++ "(" ++ fmtParams params ++ ")' resource not found"))
    else .error (.badRequest (storageMsg e) (some e))
  | .error (.http e) => .error e
  | .ok (.countPhase n) => .ok (.countResult n)
  | .ok (.queryPhase q total startOut) =>
    let query_sql := renderSQL m q
    if explainMode then .ok (.explainResult query_sql)
    else if !_fields.isEmpty then
      .ok (.fieldsResult (add_field_names m q _fields)
        { total := total, start := startOut, fields := _fields })
    else .ok (.queryResult q { total := total, start := startOut, fields := _fields })

/-- BaseMixin.get_collection: pops the directive parameters, drops legacy
double-underscore keys, extracts the iterable containment expressions,
validates or filters the residual field names, normalises list/bool suffix
parameters, drops `_all`-valued filters, runs the query phase, translates a
`DataError` into not-found (single-item request) or bad-request, and returns
the count, the explain string, the field-projected mappings or the query with
its metadata.  The `query_set` parameter of the source is the explicit
`querySetArg` argument; the database contents stand in for the fresh session
query. -/
def get_collection (m : SqlaModel) (db : List Row) (querySetArg : Option Query)
    (params0 : Params) : Except PyErr GCResult :=
  let params := pyDelKey params0 "__confirmation"
  let strictPop := pyPop params "_strict" (.vBool true)
  let params := strictPop.2
  let itemPop := pyPop params "_item_request" (.vBool false)
  let params := itemPop.2
  let _item_request := pyTruthy itemPop.1
  let sortPop := pyPop params "_sort" (.vStrList [])
  let params := sortPop.2
  let _sort := pySplitVal sortPop.1
  let fieldsPop := pyPop params "_fields" (.vStrList [])
  let params := fieldsPop.2
  let _fields := pySplitVal fieldsPop.1
  let limitPop := pyPop params "_limit" .vNone
  let params := limitPop.2
  let pagePop := pyPop params "_page" .vNone
  let params := pagePop.2
  let startPop := pyPop params "_start" .vNone
  let params := startPop.2
  let countMode := pyHasKey params "_count"
  let params := pyDelKey params "_count"
  let explainMode := pyHasKey params "_explain"
  let params := pyDelKey params "_explain"
  let roePop := pyPop params "_raise_on_empty" (.vBool false)
  let params := roePop.2
  let raiseOnEmpty := pyTruthy roePop.1
  let query_set : Query := querySetArg.getD { rows := db }
  let params := params.filter (fun kv => !strStarts kv.1 "__")
  match _pop_iterables m params with
  | .error e => .error e
  | .ok popped =>
    let iterablesExprs := popped.1
    let params := drop_reserved_params popped.2
    let checked : Except PyErr Params :=
      if pyTruthy strictPop.1 then
        match check_fields_allowed m
            ((params.map (fun kv => kv.1) ++ _fields ++ _sort).map pyStripMarks) with
        | .error e => .error e
        | .ok _ => .ok params
      else .ok (filter_fields m params)
    match checked with
    | .error e => .error e
    | .ok params =>
      let params := process_lists params
      let params := process_bools params
      let params := params.filter (fun kv => !(kv.2 == Value.vStr "_all"))
      gc_translate m _item_request params explainMode _fields
        (gc_try m query_set params iterablesExprs countMode _fields _sort
          limitPop.1 pagePop.1 startPop.1 raiseOnEmpty)

/-- query_set.first() on the value get_item receives back: the head row of a
query result (`first()` is only meaningful on a query object). -/
def gcFirst : GCResult → Option Row
  | .queryResult q _ => q.rows.head?
  | _ => none

/-- BaseMixin.get_item: defaults `_raise_on_empty` to True, forces `_limit` to
1 and `_item_request` to True, queries the collection and returns the first
item. -/
def get_item (m : SqlaModel) (db : List Row) (params : Params) :
    Except PyErr (Option Row) :=
  let params := pySetDefault params "_raise_on_empty" (.vBool true)
  let params := pySetKey params "_limit" (.vInt 1)
  let params := pySetKey params "_item_request" (.vBool true)
  match get_collection m db none params with
  | .error e => .error e
  | .ok res => .ok (gcFirst res)

/-- BaseMixin.to_dict for a loaded record: every native field's value keyed by
its name, then the `_type` tag and `_pk`, the Python `str()` form of the
primary-key value.  The relationship encoder branches of the source are not
modelled; the theorems below quantify over models whose native fields hold
scalar values. -/
def to_dict (m : SqlaModel) (record : Row) : Row :=
  (native_fields m).map (fun f => (f, (rowLookup record f).getD .vNone)) ++
    [("_type", Value.vStr m.clsName),
     ("_pk", Value.vStr (pyStr ((rowLookup record m.pk).getD .vNone)))]

/-- Outcome of `session.flush()` during BaseDocument.save, as far as the
`except` clause distinguishes it: success, an `IntegrityError` with its
message, or any other storage error. -/
inductive FlushOutcome where
  | flushOk
  | flushIntegrityError (msg : String)
  | flushOtherError (e : StorageErr)
deriving DecidableEq, Repr

/-- BaseDocument.save error handling: only `IntegrityError` is caught; when
its message contains `duplicate` it becomes a conflict error naming the model
class, otherwise it is re-raised; any other storage error propagates
uncaught. -/
def save (m : SqlaModel) (outcome : FlushOutcome) : Except PyErr Unit :=
  match outcome with
  | .flushOk => .ok ()
  | .flushIntegrityError msg =>
    if !strContainsSub msg "duplicate" then .error (.storage (.integrityError msg))
    else
      .error (.conflict ("Resource `" ++ m.clsName ++ "` already exists.")
        (some (.integrityError msg)))
  | .flushOtherError e => .error (.storage e)

/-- Before/after history of one tracked attribute, as
`state.get_history(field, self)` reports it. -/
structure AttrHistory where
  added : List Value
  deleted : List Value
deriving DecidableEq, Repr

/-- The ORM instance state read by `_is_modified`: the persistent and modified
flags and the committed state, each tracked field paired with its history. -/
structure InstanceState where
  persistent : Bool
  modified : Bool
  committed_state : List (String × AttrHistory)
deriving DecidableEq, Repr

/-- BaseMixin._is_modified: the record counts as modified when its state is
persistent and marked modified and some tracked field's history shows an
added or a deleted value (the source returns `True` or falls through to
`None`; modelled as a boolean). -/
def _is_modified (st : InstanceState) : Bool :=
  st.persistent && st.modified &&
    st.committed_state.any (fun fh => !fh.2.added.isEmpty || !fh.2.deleted.isEmpty)

/-- Version counter and modification timestamp of a record. -/
structure VersionInfo where
  version : Nat
  updated_at : Int
deriving DecidableEq, Repr

/-- Modelled from the spec: the version bookkeeping consuming `_is_modified`
is not part of src (src only defines `_is_modified`); per the spec, on an
update the version counter increments and the modification timestamp updates
together exactly when the record counts as modified. -/
def apply_version_bookkeeping (st : InstanceState) (v : VersionInfo) (now : Int) :
    VersionInfo :=
  if _is_modified st then { version := v.version + 1, updated_at := now } else v

/-- split_keys of BaseMixin.update_iterables: double-underscore keys are
skipped, a leading `-` marks a removal (the marker dropped), any other key is
a stripped positive key. -/
def split_keys (keys : List String) : List String × List String :=
  ((keys.filter (fun k => !strStarts k "__" && !strStarts k "-")).map pyTrim,
   (keys.filter (fun k => !strStarts k "__" && strStarts k "-")).map (fun k => strDropN k 1))

/-- The elements of `list(set(a) - set(b))` over strings.  CPython enumerates
a set in hash order, which fixes no usable order; this embedding lists the
elements in first occurrence order, and no theorem below relies on that
choice. -/
def pySetDiffList (a b : List String) : List String :=
  a.dedup.filter (fun x => !b.contains x)

/-- update_list of BaseMixin.update_iterables on a list-typed field: `prev` is
the current value, `update_params` the update keys (`none` models both `None`
and the empty string, which expand to removing every current element;
returning `none` models the early return that writes nothing back).  Positive
keys are appended — in unique mode only those not already present — and the
removal keys are subtracted with set semantics. -/
def update_list (prev : List String) (update_params : Option (List String))
    (unique : Bool) : Except PyErr (Option (List String)) :=
  let upd : Option (List String) :=
    match update_params with
    | none => if prev.isEmpty then none else some (prev.map (fun v => "-" ++ v))
    | some ks => some ks
  match upd with
  | none => .ok none
  | some keys =>
    let positive := (split_keys keys).1
    let negative := (split_keys keys).2
    if positive.isEmpty && negative.isEmpty then
      .error (.badRequest "Missing params" none)
    else
      let afterPos :=
        if !positive.isEmpty then
          prev ++ (if unique then positive.filter (fun v => !prev.contains v) else positive)
        else prev
      let afterNeg :=
        if !negative.isEmpty then pySetDiffList afterPos negative else afterPos
      .ok (some afterNeg)

/-- A plain two-column model, `id` an integer primary key and `name` a string
column, as in the repository's fixtures. -/
def simpleModel : SqlaModel :=
  { clsName := "MyModel", cols := [("id", .intCol), ("name", .strCol)],
    pk := "id", relationships := [] }

/-- A model carrying a map-typed (`DictField`) column. -/
def dictModel : SqlaModel :=
  { clsName := "MyModel", cols := [("id", .intCol), ("settings", .dictCol)],
    pk := "id", relationships := [] }

/-- The four-field model of the spec's projection example: fields
`a`, `b`, `c` and the primary key `pk`. -/
def abcModel : SqlaModel :=
  { clsName := "M5",
    cols := [("a", .strCol), ("b", .strCol), ("c", .strCol), ("pk", .intCol)],
    pk := "pk", relationships := [] }

/-! Helper lemmas shared by the claim theorems. -/

theorem filter_by_nil : ∀ rows : List Row, filter_by [] rows = .ok rows := by
  intro rows
  induction rows with
  | nil => rfl
  | cons r rs ih => simp [filter_by, rowSatisfies, ih]

theorem popIterablesAux_dict (m : SqlaModel) :
    ∀ (params : Params) (k : String) (v : Value), (k, v) ∈ params →
      lookupCol m k = some .dictCol →
      popIterablesAux m params =
        .error (.exc "DictField database querying is not supported") := by
  intro params
  induction params with
  | nil => intro k v h; exact absurd h (List.not_mem_nil _)
  | cons kv rest ih =>
    intro k v hmem hdict
    rcases List.mem_cons.mp hmem with heq | htail
    · subst heq
      simp [popIterablesAux, hdict]
    · cases hcol : lookupCol m kv.1 with
      | none => simpa [popIterablesAux, hcol] using ih k v htail hdict
      | some ck =>
        cases ck with
        | listCol pg => simp [popIterablesAux, hcol, ih k v htail hdict]
        | dictCol => simp [popIterablesAux, hcol]
        | intCol => simpa [popIterablesAux, hcol] using ih k v htail hdict
        | strCol => simpa [popIterablesAux, hcol] using ih k v htail hdict
        | boolCol => simpa [popIterablesAux, hcol] using ih k v htail hdict

/-! Claim C1. -/

/-- C1 counterexample: with a map-typed (`DictField`) column `settings`, the
residual filter `settings=foo` does not compile into a containment
expression: `_pop_iterables` raises, and so does the whole `get_collection`
call, refuting the claim that compilation of such a filter succeeds. -/
theorem c1_counterexample :
    _pop_iterables dictModel [("settings", .vStr "foo")] =
      .error (.exc "DictField database querying is not supported") ∧
    get_collection dictModel [] none [("settings", .vStr "foo"), ("_limit", .vInt 1)] =
      .error (.exc "DictField database querying is not supported") :=
  ⟨rfl, by decide⟩

/-- C1 amended: whenever a residual filter key names a map-typed (`DictField`)
column of the model, `_pop_iterables` raises
`Exception('DictField database querying is not supported')` instead of
producing a containment expression. -/
theorem c1_dict_query_raises (m : SqlaModel) (params : Params) (k : String) (v : Value)
    (hmem : (k, v) ∈ params) (hdict : lookupCol m k = some .dictCol) :
    _pop_iterables m params =
      .error (.exc "DictField database querying is not supported") := by
  unfold _pop_iterables
  rw [popIterablesAux_dict m params k v hmem hdict]

/-- C1 witness: the amended theorem applied to the concrete dict-column
model and filter. -/
theorem c1_witness :
    _pop_iterables dictModel [("id", .vInt 1), ("settings", .vStr "foo")] =
      .error (.exc "DictField database querying is not supported") :=
  c1_dict_query_raises dictModel _ "settings" (.vStr "foo") (by decide) (by decide)

/-! Claim C2. -/

/-- C2 counterexample: a `get_collection` call without `_limit` (and without
count/explain mode) does not fail with a bad-request error; it succeeds and
returns the full result set. -/
theorem c2_counterexample :
    get_collection simpleModel [[("id", .vInt 1), ("name", .vStr "foo")]] none [] =
      .ok (.queryResult
        { rows := [[("id", .vInt 1), ("name", .vStr "foo")]], entities := none }
        { total := 1, start := none, fields := [] }) :=
  rfl

/-- C2 amended: when no `_limit` parameter is supplied, `get_collection` does
not fail; no offset or limit is applied and the query returns every matching
row (here: an empty filter bag returns the whole table, with the
pre-pagination total attached). -/
theorem c2_no_limit_returns_all (m : SqlaModel) (db : List Row) :
    get_collection m db none [] =
      .ok (.queryResult { rows := db, entities := none }
        { total := db.length, start := none, fields := [] }) := by
  simp [get_collection, gc_try, gc_translate, filter_by_nil, pyDelKey, pyPop, pyHasKey, rowLookup,
    pySplitVal, pyTruthy, _pop_iterables, popIterablesAux, drop_reserved_params,
    check_fields_allowed, check_fields_allowed_iter, process_lists, process_bools,
    applyIterExprs, apply_fields, process_fields, apply_sort, add_field_names,
    valToOptInt]

theorem rowLookup_append_right (l₁ l₂ : Row) (k : String)
    (h : ∀ kv ∈ l₁, kv.1 ≠ k) : rowLookup (l₁ ++ l₂) k = rowLookup l₂ k := by
  induction l₁ with
  | nil => rfl
  | cons kv rest ih =>
    have hkv : (kv.1 == k) = false := by
      have := h kv (List.mem_cons_self kv rest)
      simpa using this
    have hrest : ∀ kv ∈ rest, kv.1 ≠ k := fun x hx => h x (List.mem_cons_of_mem kv hx)
    simp only [rowLookup, List.cons_append, List.find?] at *
    rw [hkv]
    exact ih hrest

theorem pyHasKey_false_forall (l : Row) (k : String) (h : pyHasKey l k = false) :
    ∀ kv ∈ l, kv.1 ≠ k := by
  intro kv hkv
  have := List.any_eq_false.mp h kv hkv
  simpa using this

theorem pyHasKey_isSome (l : Row) (k : String) (h : pyHasKey l k = true) :
    (rowLookup l k).isSome = true := by
  induction l with
  | nil => simp [pyHasKey] at h
  | cons kv rest ih =>
    by_cases hk : (kv.1 == k) = true
    · simp [rowLookup, List.find?, hk]
    · have hk' : (kv.1 == k) = false := by simpa using hk
      have h' : pyHasKey rest k = true := by
        simpa [pyHasKey, hk'] using h
      simpa [rowLookup, List.find?, hk'] using ih h'

/-! Claim C3. -/

/-- C3 counterexample: inserting the record with integer primary key 1 and
`name` `foo` and asking for `_fields=[name]` produces the mapping with
`_pk` bound to the raw integer `1`, not to the string `"1"` that the claim
(and the spec scenario) demand. -/
theorem c3_counterexample :
    get_collection simpleModel [[("id", .vInt 1), ("name", .vStr "foo")]] none
        [("_fields", .vStrList ["name"]), ("_limit", .vInt 1)] =
      .ok (.fieldsResult
        [[("name", .vStr "foo"), ("_type", .vStr "MyModel"), ("_pk", .vInt 1)]]
        { total := 1, start := some 0, fields := ["name"] }) ∧
    Value.vInt 1 ≠ Value.vStr "1" :=
  ⟨by decide, by decide⟩

/-- C3 amended: `_pk` is always present in both serializations, but only
`to_dict` stringifies it: in `to_dict` the `_pk` entry holds the Python
`str()` form of the primary-key value, while in the field-projected mappings
of `add_field_names` the `_pk` entry holds the raw primary-key value
unchanged. -/
theorem c3_pk_serialization :
    (∀ (m : SqlaModel) (record : Row), (∀ f ∈ native_fields m, f ≠ "_pk") →
      rowLookup (to_dict m record) "_pk" =
        some (.vStr (pyStr ((rowLookup record m.pk).getD .vNone)))) ∧
    (∀ (m : SqlaModel) (requested : List String) (obj : Row),
      pyHasKey obj "_pk" = false → pyHasKey obj m.pk = true → m.pk ≠ "_pk" →
      rowLookup (addFieldPk m requested obj) "_pk" = rowLookup obj m.pk) := by
  constructor
  · intro m record h
    unfold to_dict
    rw [rowLookup_append_right]
    · simp [rowLookup, List.find?]
    · intro kv hkv
      rcases List.mem_map.mp hkv with ⟨f, hf, rfl⟩
      exact h f hf
  · intro m requested obj hnopk hhas hne
    obtain ⟨x, hx⟩ := Option.isSome_iff_exists.mp (pyHasKey_isSome obj m.pk hhas)
    have hentries : ∀ kv ∈ obj, kv.1 ≠ "_pk" := pyHasKey_false_forall obj "_pk" hnopk
    have hset : pySetKey obj "_pk" ((rowLookup obj m.pk).getD .vNone) =
        obj ++ [("_pk", (rowLookup obj m.pk).getD .vNone)] := by
      simp [pySetKey, hnopk]
    unfold addFieldPk
    rw [hhas]
    simp only [if_true, hset]
    by_cases hreq : requested.contains m.pk
    · rw [if_neg (by simpa using hreq)]
      rw [rowLookup_append_right obj _ "_pk" hentries, hx]
      rfl
    · rw [if_pos (by simpa using hreq)]
      have hfilter : pyDelKey (obj ++ [("_pk", (rowLookup obj m.pk).getD .vNone)]) m.pk =
          obj.filter (fun kv => kv.1 != m.pk) ++
            [("_pk", (rowLookup obj m.pk).getD .vNone)] := by
        simp [pyDelKey, List.filter_append]
        intro hcontra
        exact hne hcontra.symm
      rw [hfilter]
      rw [rowLookup_append_right _ _ "_pk"
        (fun kv hkv => hentries kv (List.mem_of_mem_filter hkv)), hx]
      rfl

/-- C3 witness: the amended theorem at a concrete record with integer primary
key 7: `to_dict` stringifies it, the projected mapping keeps the integer. -/
theorem c3_witness :
    rowLookup (to_dict simpleModel [("id", .vInt 7), ("name", .vStr "x")]) "_pk" =
      some (.vStr "7") ∧
    rowLookup (addFieldPk simpleModel ["name"] [("id", .vInt 7), ("name", .vStr "x")])
        "_pk" = some (.vInt 7) := by
  constructor
  · have h := c3_pk_serialization.1 simpleModel [("id", .vInt 7), ("name", .vStr "x")]
      (by decide)
    simpa using h
  · have h := c3_pk_serialization.2 simpleModel ["name"]
      [("id", .vInt 7), ("name", .vStr "x")] (by decide) (by decide) (by decide)
    simpa using h

/-! Claim C4. -/

/-- C4 counterexample: requesting the two unknown fields `zz` and `aa` (in
this order) produces the message listing `zz, aa` — the first-occurrence
enumeration of the excess set, to which the source applies no sorting — while
the sorted listing the claim demands would be `aa, zz`. -/
theorem c4_counterexample :
    check_fields_allowed simpleModel ["zz", "aa"] =
      .error (.badRequest "'MyModel' object does not have fields: zz, aa" none) ∧
    String.intercalate ", " (sortStrings (excessFields simpleModel ["zz", "aa"])) =
      "aa, zz" ∧
    ("zz, aa" : String) ≠ "aa, zz" :=
  ⟨by decide, by decide, by decide⟩

/-- C4 amended: for every admissible set-enumeration order, the check raises
exactly when the suffix-stripped requested names are not all allowed, and the
raised message lists exactly the excess names, without duplicates, in the
(unspecified, unsorted) set-enumeration order. -/
theorem c4_check_fields (σ : List String → List String)
    (hσ : ∀ l, (σ l).Perm l) (m : SqlaModel) (R : List String) :
    (check_fields_allowed_iter σ m R = .ok () ↔
      ∀ f ∈ R.map fieldBase, f ∈ fields_to_query m) ∧
    (check_fields_allowed_iter σ m R ≠ .ok () →
      check_fields_allowed_iter σ m R = .error (.badRequest
        ("'" ++ m.clsName ++ "' object does not have fields: " ++
          String.intercalate ", " (σ (excessFields m R))) none) ∧
      (σ (excessFields m R)).Nodup ∧
      (∀ x, x ∈ σ (excessFields m R) ↔
        (x ∈ R.map fieldBase ∧ x ∉ fields_to_query m))) := by
  have hmem : ∀ x, x ∈ σ (excessFields m R) ↔
      (x ∈ R.map fieldBase ∧ x ∉ fields_to_query m) := by
    intro x
    rw [(hσ (excessFields m R)).mem_iff]
    simp [excessFields]
  have hnodup : (σ (excessFields m R)).Nodup :=
    (hσ (excessFields m R)).nodup_iff.mpr
      (List.Nodup.filter _ (R.map fieldBase).nodup_dedup)
  by_cases hall : ∀ f ∈ R.map fieldBase, f ∈ fields_to_query m
  · have hcond : ((R.map fieldBase).all (fun f => (fields_to_query m).contains f)) = true :=
      List.all_eq_true.mpr (fun f hf => List.elem_eq_true_of_mem (hall f hf))
    have hok : check_fields_allowed_iter σ m R = .ok () := by
      unfold check_fields_allowed_iter
      dsimp only
      rw [if_pos hcond]
    exact ⟨iff_of_true hok hall, fun hne => absurd hok hne⟩
  · have hcond : ((R.map fieldBase).all (fun f => (fields_to_query m).contains f)) = false := by
      cases h : (R.map fieldBase).all (fun f => (fields_to_query m).contains f) with
      | false => rfl
      | true =>
        refine absurd (fun f hf => ?_) hall
        exact List.mem_of_elem_eq_true (List.all_eq_true.mp h f hf)
    have herr : check_fields_allowed_iter σ m R = .error (.badRequest
        ("'" ++ m.clsName ++ "' object does not have fields: " ++
          String.intercalate ", " (σ (excessFields m R))) none) := by
      unfold check_fields_allowed_iter
      dsimp only
      rw [if_neg (by rw [hcond]; exact Bool.false_ne_true)]
    refine ⟨?_, fun _ => ⟨herr, hnodup, hmem⟩⟩
    rw [herr]
    constructor
    · intro h; exact absurd h (by simp)
    · intro h; exact absurd h hall

/-- C4 witness: the amended theorem applied with the identity enumeration to
one unknown field. -/
theorem c4_witness :
    check_fields_allowed_iter id simpleModel ["zz"] =
      .error (.badRequest "'MyModel' object does not have fields: zz" none) := by
  have h := (c4_check_fields id (fun l => List.Perm.refl l) simpleModel ["zz"]).2
    (by decide)
  simpa using h.1

/-! Claim C5. -/

theorem charToNat_ne {a b : Char} (h : a ≠ b) : a.toNat ≠ b.toNat :=
  fun hn => h (Char.ext (UInt32.ext hn))

theorem strLeList_total : ∀ as bs : List Char,
    strLeList as bs = true ∨ strLeList bs as = true := by
  intro as
  induction as with
  | nil => intro bs; left; rfl
  | cons a as ih =>
    intro bs
    cases bs with
    | nil => right; rfl
    | cons b bs =>
      by_cases hab : a = b
      · subst hab
        simpa only [strLeList, if_pos rfl] using ih bs
      · have hba : b ≠ a := fun h => hab h.symm
        simp only [strLeList, if_neg hab, if_neg hba, decide_eq_true_eq]
        rcases Nat.lt_or_ge a.toNat b.toNat with h | h
        · exact Or.inl h
        · exact Or.inr (lt_of_le_of_ne h (fun hn => charToNat_ne hab hn.symm))

theorem strLeList_trans : ∀ as bs cs : List Char,
    strLeList as bs = true → strLeList bs cs = true → strLeList as cs = true := by
  intro as
  induction as with
  | nil => intro bs cs h1 h2; rfl
  | cons a as ih =>
    intro bs cs h1 h2
    cases bs with
    | nil => simp [strLeList] at h1
    | cons b bs =>
      cases cs with
      | nil => simp [strLeList] at h2
      | cons c cs =>
        by_cases hab : a = b
        · subst hab
          by_cases hac : a = c
          · subst hac
            simp only [strLeList, if_pos rfl] at h1 h2 ⊢
            exact ih bs cs h1 h2
          · simp only [strLeList, if_pos rfl, if_neg hac] at h1 h2 ⊢
            exact h2
        · by_cases hbc : b = c
          · subst hbc
            simp only [strLeList, if_neg hab] at h1 ⊢
            exact h1
          · by_cases hac : a = c
            · subst hac
              simp only [strLeList, if_neg hab, if_neg hbc, decide_eq_true_eq] at h1 h2
              exact absurd (Nat.lt_trans h1 h2) (Nat.lt_irrefl a.toNat)
            · simp only [strLeList, if_neg hab, if_neg hbc, if_neg hac,
                decide_eq_true_eq] at h1 h2 ⊢
              exact Nat.lt_trans h1 h2

instance strLeIsTotal : IsTotal String (fun a b => strLe a b = true) :=
  ⟨fun a b => strLeList_total a.data b.data⟩

instance strLeIsTrans : IsTrans String (fun a b => strLe a b = true) :=
  ⟨fun a b c => strLeList_trans a.data b.data c.data⟩

theorem sortStrings_perm (l : List String) : (sortStrings l).Perm l :=
  List.perm_insertionSort _ l

theorem sortStrings_sorted (l : List String) :
    List.Sorted (fun a b => strLe a b = true) (sortStrings l) :=
  List.sorted_insertionSort _ l

theorem filterExcl_eq (base fe : List String) :
    (if !fe.isEmpty then base.filter (fun f => !fe.contains f) else base) =
      base.filter (fun f => !fe.contains f) := by
  cases h : fe.isEmpty
  · simp [h]
  · have hfe : fe = [] := List.isEmpty_iff.mp h
    subst hfe
    simp

/-- C5 counterexample: over the model with fields `a`, `b`, `c` and primary
key `pk`, requesting `[a, -b]` narrows the selected columns to `[a, pk]` —
the inclusion list minus the exclusion list plus the primary key — not to the
`[a, c, pk]` the claim's example demands. -/
theorem c5_counterexample :
    apply_fields abcModel { rows := [] } ["a", "-b"] =
      { rows := [], entities := some ["a", "pk"] } ∧
    (["a", "pk"] : List String) ≠ ["a", "c", "pk"] :=
  ⟨by decide, by decide⟩

/-- C5 amended: an empty fields directive leaves the query unmodified;
otherwise the effective set is the inclusion list (or all native fields when
the inclusion list is absent) minus the exclusion list, and whenever that
effective set is non-empty the selected columns are exactly the effective set
plus the primary key, sorted and without duplicates — so the example
`[a, -b]` over fields `{a,b,c,pk}` yields `{a, pk}`, not `{a, c, pk}`. -/
theorem c5_apply_fields :
    (∀ (m : SqlaModel) (q : Query), apply_fields m q [] = q) ∧
    (∀ (m : SqlaModel) (q : Query) (_fields base eff : List String),
      base = (if (process_fields _fields).1.isEmpty then native_fields m
              else (process_fields _fields).1) →
      eff = base.filter (fun f => !(process_fields _fields).2.contains f) →
      ((process_fields _fields).1.isEmpty = false ∨
        (process_fields _fields).2.isEmpty = false) →
      eff.isEmpty = false →
      (apply_fields m q _fields = { q with entities := some (sortStrings (eff ++ [m.pk]).dedup) } ∧
        List.Sorted (fun a b => strLe a b = true) (sortStrings (eff ++ [m.pk]).dedup) ∧
        (sortStrings (eff ++ [m.pk]).dedup).Nodup ∧
        (∀ x, x ∈ sortStrings (eff ++ [m.pk]).dedup ↔ (x ∈ eff ∨ x = m.pk)))) := by
  constructor
  · intro m q; rfl
  · intro m q _fields base eff hbase heff hsome heffne
    have hcond : ((process_fields _fields).1.isEmpty &&
        (process_fields _fields).2.isEmpty) = false := by
      rcases hsome with h | h <;> simp [h]
    refine ⟨?_, sortStrings_sorted _, ?_, ?_⟩
    · unfold apply_fields
      dsimp only
      rw [if_neg (by simp [hcond])]
      rw [filterExcl_eq, ← hbase, ← heff, if_pos (by simp [heffne])]
    · exact (sortStrings_perm _).nodup_iff.mpr (eff ++ [m.pk]).nodup_dedup
    · intro x
      rw [(sortStrings_perm _).mem_iff, List.mem_dedup]
      simp

/-- C5 witness: the amended theorem's general rule instantiated at the
concrete request `[b, -c]` over the example model. -/
theorem c5_witness :
    apply_fields abcModel { rows := [] } ["b", "-c"] =
      { rows := ([] : List Row),
        entities := some (sortStrings ((["b"] ++ ["pk"]).dedup)) } := by
  have h := c5_apply_fields.2 abcModel { rows := [] } ["b", "-c"] ["b"] ["b"]
    (by decide) (by decide) (by decide) (by decide)
  exact h.1

/-! Claim C6. -/

/-- C6: a record counts as modified exactly when it is persisted, the ORM's
dirty flag is set and some tracked field's history shows an actual
difference; consequently a no-op update (every tracked field's history empty)
leaves the version counter and the modification timestamp unchanged. -/
theorem c6_version_bookkeeping :
    (∀ (st : InstanceState) (v : VersionInfo) (now : Int),
      (∀ fh ∈ st.committed_state, fh.2.added = [] ∧ fh.2.deleted = []) →
      apply_version_bookkeeping st v now = v) ∧
    (∀ st : InstanceState, _is_modified st = true ↔
      (st.persistent = true ∧ st.modified = true ∧
        ∃ fh ∈ st.committed_state, fh.2.added ≠ [] ∨ fh.2.deleted ≠ [])) := by
  constructor
  · intro st v now h
    have hany : st.committed_state.any
        (fun fh => !fh.2.added.isEmpty || !fh.2.deleted.isEmpty) = false := by
      rw [List.any_eq_false]
      intro fh hfh
      rcases h fh hfh with ⟨h1, h2⟩
      simp [h1, h2]
    have hmod : _is_modified st = false := by
      unfold _is_modified
      simp [hany]
    simp [apply_version_bookkeeping, hmod]
  · intro st
    unfold _is_modified
    simp [List.any_eq_true, Bool.and_assoc, and_assoc,
      List.isEmpty_iff]

/-- C6 witness: the theorem at a concrete persisted state whose only tracked
field history shows no difference — the version info is unchanged — and at a
state with a real change — `_is_modified` holds. -/
theorem c6_witness :
    apply_version_bookkeeping
      { persistent := true, modified := true,
        committed_state := [("name", { added := [], deleted := [] })] }
      { version := 3, updated_at := 100 } 200 =
      { version := 3, updated_at := 100 } ∧
    (_is_modified
      { persistent := true, modified := true,
        committed_state := [("name", { added := [.vStr "x"], deleted := [] })] } = true) := by
  constructor
  · exact c6_version_bookkeeping.1 _ _ _ (by decide)
  · exact (c6_version_bookkeeping.2 _).mpr
      ⟨rfl, rfl, ⟨("name", { added := [.vStr "x"], deleted := [] }), by decide, by decide⟩⟩

/-! Claim C7. -/

/-- C7: a flush raising an `IntegrityError` whose message reports a duplicate
is translated to a conflict error whose message names the model class; an
`IntegrityError` without `duplicate` in its message is re-raised unchanged,
and any other storage error propagates unchanged. -/
theorem c7_save_errors :
    (∀ (m : SqlaModel) (msg : String), strContainsSub msg "duplicate" = true →
      save m (.flushIntegrityError msg) =
        .error (.conflict ("Resource `" ++ m.clsName ++ "` already exists.")
          (some (.integrityError msg)))) ∧
    (∀ (m : SqlaModel) (msg : String), strContainsSub msg "duplicate" = false →
      save m (.flushIntegrityError msg) = .error (.storage (.integrityError msg))) ∧
    (∀ (m : SqlaModel) (e : StorageErr),
      save m (.flushOtherError e) = .error (.storage e)) := by
  refine ⟨?_, ?_, ?_⟩
  · intro m msg h
    simp [save, h]
  · intro m msg h
    simp [save, h]
  · intro m e
    rfl

/-- C7 witness: the theorem at a concrete duplicate-key message and at a
concrete unrelated storage error. -/
theorem c7_witness :
    save simpleModel (.flushIntegrityError "duplicate key value violates unique constraint") =
      .error (.conflict "Resource `MyModel` already exists."
        (some (.integrityError "duplicate key value violates unique constraint"))) ∧
    save simpleModel (.flushOtherError (.otherError "disk full")) =
      .error (.storage (.otherError "disk full")) := by
  constructor
  · have h := c7_save_errors.1 simpleModel
      "duplicate key value violates unique constraint" (by decide)
    simpa using h
  · exact c7_save_errors.2.2 simpleModel (.otherError "disk full")

/-! Claim C9. -/

/-- C9: a differential list update whose keys are all removals stores the set
difference of the previous elements and the removed elements — every element
of the result is a surviving previous element, the result has no duplicates,
and (third conjunct) the original list structure is not preserved: removing
`b` from `[a, b, a]` stores `[a]`, not `[a, a]`.  In unique mode a positive
value already present in the list is not appended again (its multiplicity is
unchanged). -/
theorem c9_update_list :
    (∀ (prev ks : List String) (unique : Bool) (l : List String),
      (split_keys ks).1 = [] → (split_keys ks).2 ≠ [] →
      update_list prev (some ks) unique = .ok (some l) →
      ((∀ x, x ∈ l ↔ (x ∈ prev ∧ x ∉ (split_keys ks).2)) ∧ l.Nodup)) ∧
    (∀ (prev ks : List String) (v : String) (l : List String),
      (split_keys ks).2 = [] → (split_keys ks).1 ≠ [] → v ∈ prev →
      update_list prev (some ks) true = .ok (some l) →
      l.count v = prev.count v) ∧
    (update_list ["a", "b", "a"] (some ["-b"]) false = .ok (some ["a"]) ∧
      (["a"] : List String) ≠ ["a", "a"]) := by
  refine ⟨?_, ?_, by decide, by decide⟩
  · intro prev ks unique l h1 h2 hl
    have hnegb : (split_keys ks).2.isEmpty = false := by
      cases hx : (split_keys ks).2 with
      | nil => exact absurd hx h2
      | cons a as => rfl
    have hl' : l = pySetDiffList prev (split_keys ks).2 := by
      simp [update_list, h1, hnegb] at hl
      exact hl.symm
    subst hl'
    constructor
    · intro x
      simp [pySetDiffList, List.mem_filter, List.mem_dedup]
    · exact List.Nodup.filter _ prev.nodup_dedup
  · intro prev ks v l h1 h2 hv hl
    have hposb : (split_keys ks).1.isEmpty = false := by
      cases hx : (split_keys ks).1 with
      | nil => exact absurd hx h2
      | cons a as => rfl
    have hl' : l = prev ++ (split_keys ks).1.filter (fun w => !decide (w ∈ prev)) := by
      simp [update_list, h1, hposb] at hl
      exact hl.symm
    subst hl'
    rw [List.count_append]
    have hzero : ((split_keys ks).1.filter (fun w => !decide (w ∈ prev))).count v = 0 := by
      rw [List.count_eq_zero]
      intro hmem
      have hnp := (List.mem_filter.mp hmem).2
      simp at hnp
      exact hnp hv
    rw [hzero, Nat.add_zero]

/-- C9 witness: the theorem's two general parts at concrete inputs. -/
theorem c9_witness :
    ((∀ x, x ∈ (["c"] : List String) ↔
        (x ∈ (["b", "c"] : List String) ∧ x ∉ (["b"] : List String))) ∧
      (["c"] : List String).Nodup) ∧
    (["x", "y", "z"] : List String).count "x" =
      (["x", "y"] : List String).count "x" := by
  constructor
  · exact c9_update_list.1 ["b", "c"] ["-b"] false ["c"] (by decide) (by decide)
      (by decide)
  · exact c9_update_list.2.1 ["x", "y"] ["x", "z"] "x" ["x", "y", "z"]
      (by decide) (by decide) (by decide) (by decide)

/-! Claim C8. -/

/-- C8: a type-mismatch storage error from filter evaluation (a non-numeric
string literal against the integer identifier column raises `DataError`) is
translated by `get_collection`'s except clause to not-found when the call is
a single-item request and to a bad-request error carrying the original error
otherwise; the two end-to-end runs show both translations on a live table. -/
theorem c8_data_error_translation :
    (∀ (s : String) (k : Int), pyToInt s = none →
      compareVals (.vInt k) (.vStr s) =
        .error (.dataError ("invalid input syntax for integer: " ++ s))) ∧
    (∀ (m : SqlaModel) (itemRequest : Bool) (params : Params) (explainMode : Bool)
      (_fields : List String) (e : StorageErr),
      gc_translate m itemRequest params explainMode _fields (.error (.data e)) =
        (if itemRequest then
          .error (.notFound
            ("'" ++ m.clsName ++ "(" ++ fmtParams params ++ ")' resource not found"))
        else .error (.badRequest (storageMsg e) (some e)))) ∧
    (get_collection simpleModel [[("id", .vInt 1), ("name", .vStr "foo")]] none
        [("id", .vStr "abc"), ("_item_request", .vBool true), ("_limit", .vInt 10)] =
      .error (.notFound "'MyModel(id=abc)' resource not found")) ∧
    (get_collection simpleModel [[("id", .vInt 1), ("name", .vStr "foo")]] none
        [("id", .vStr "abc"), ("_item_request", .vBool false), ("_limit", .vInt 10)] =
      .error (.badRequest "invalid input syntax for integer: abc"
        (some (.dataError "invalid input syntax for integer: abc")))) := by
  refine ⟨?_, ?_, by decide, by decide⟩
  · intro s k h
    simp [compareVals, h]
  · intro m itemRequest params explainMode _fields e
    rfl

/-- C8 witness: the type-mismatch conjunct of the theorem at the concrete
non-numeric string `abc`. -/
theorem c8_witness :
    compareVals (.vInt 1) (.vStr "abc") =
      .error (.dataError "invalid input syntax for integer: abc") := by
  have h := c8_data_error_translation.1 "abc" 1 (by decide)
  simpa using h

/-! Claim C10. -/

theorem rowLookup_map_setKey (p : Row) (k : String) (v : Value) :
    rowLookup (p.map (fun kv => if kv.1 == k then (k, v) else kv)) k =
      if pyHasKey p k then some v else none := by
  induction p with
  | nil => rfl
  | cons kv rest ih =>
    cases hkv : (kv.1 == k) with
    | true =>
      simp only [List.map_cons, hkv, if_true, pyHasKey, List.any_cons, Bool.true_or]
      simp [rowLookup, List.find?]
    | false =>
      simp only [List.map_cons, hkv, if_false, pyHasKey, List.any_cons, Bool.false_or]
      simpa [rowLookup, List.find?, hkv] using ih

theorem rowLookup_pySetKey_self (p : Row) (k : String) (v : Value) :
    rowLookup (pySetKey p k v) k = some v := by
  unfold pySetKey
  by_cases hk : pyHasKey p k = true
  · rw [if_pos hk, rowLookup_map_setKey]
    simp [hk]
  · have hk' : pyHasKey p k = false := by simpa using hk
    rw [if_neg hk, rowLookup_append_right p _ k (pyHasKey_false_forall p k hk')]
    simp [rowLookup, List.find?]

theorem rowLookup_cons (kv : String × Value) (rest : Row) (k' : String) :
    rowLookup (kv :: rest) k' =
      (if (kv.1 == k') = true then some kv.2 else rowLookup rest k') := by
  by_cases h : (kv.1 == k') = true
  · simp [rowLookup, List.find?, h]
  · have h' : (kv.1 == k') = false := by simpa using h
    simp [rowLookup, List.find?, h']

theorem rowLookup_map_setKey_ne (p : Row) (k k' : String) (v : Value) (h : k' ≠ k) :
    rowLookup (p.map (fun kv => if kv.1 == k then (k, v) else kv)) k' =
      rowLookup p k' := by
  have hkk' : ¬((k == k') = true) := by
    simp
    exact fun hc => h hc.symm
  induction p with
  | nil => rfl
  | cons kv rest ih =>
    rw [List.map_cons, rowLookup_cons, rowLookup_cons]
    by_cases hkv : (kv.1 == k) = true
    · have hkv' : kv.1 = k := by simpa using hkv
      rw [if_pos hkv]
      dsimp only
      rw [if_neg hkk', if_neg (by rw [hkv']; exact hkk')]
      exact ih
    · have hkvf : (kv.1 == k) = false := by simpa using hkv
      rw [hkvf, if_neg Bool.false_ne_true]
      by_cases hkv2 : (kv.1 == k') = true
      · rw [if_pos hkv2, if_pos hkv2]
      · rw [if_neg hkv2, if_neg hkv2]
        exact ih

theorem rowLookup_append_single_ne (p : Row) (k k' : String) (v : Value) (h : k' ≠ k) :
    rowLookup (p ++ [(k, v)]) k' = rowLookup p k' := by
  have hkk' : ¬((k == k') = true) := by
    simp
    exact fun hc => h hc.symm
  induction p with
  | nil =>
    rw [List.nil_append, rowLookup_cons]
    dsimp only
    rw [if_neg hkk']
  | cons kv rest ih =>
    rw [List.cons_append, rowLookup_cons, rowLookup_cons]
    by_cases hkv2 : (kv.1 == k') = true
    · rw [if_pos hkv2, if_pos hkv2]
    · rw [if_neg hkv2, if_neg hkv2]
      exact ih

theorem rowLookup_pySetKey_ne (p : Row) (k k' : String) (v : Value) (h : k' ≠ k) :
    rowLookup (pySetKey p k v) k' = rowLookup p k' := by
  unfold pySetKey
  by_cases hk : pyHasKey p k = true
  · rw [if_pos hk]
    exact rowLookup_map_setKey_ne p k k' v h
  · rw [if_neg hk]
    exact rowLookup_append_single_ne p k k' v h

/-- C10: `get_item` forces `_limit` to 1 and `_item_request` to `True` on the
compiled parameter bag and defaults `_raise_on_empty` to `True` when the
caller did not supply it; consequently an empty result raises not-found, a
type-mismatch filter error surfaces as not-found (not bad-request), and an
explicit `_raise_on_empty=False` suppresses the not-found error. -/
theorem c10_get_item :
    (∀ params : Params,
      rowLookup (pySetKey (pySetKey (pySetDefault params "_raise_on_empty" (.vBool true))
          "_limit" (.vInt 1)) "_item_request" (.vBool true)) "_limit" = some (.vInt 1) ∧
      rowLookup (pySetKey (pySetKey (pySetDefault params "_raise_on_empty" (.vBool true))
          "_limit" (.vInt 1)) "_item_request" (.vBool true)) "_item_request" =
        some (.vBool true) ∧
      (pyHasKey params "_raise_on_empty" = false →
        rowLookup (pySetKey (pySetKey (pySetDefault params "_raise_on_empty" (.vBool true))
            "_limit" (.vInt 1)) "_item_request" (.vBool true)) "_raise_on_empty" =
          some (.vBool true))) ∧
    (get_item simpleModel [] [] = .error (.notFound "'MyModel()' resource not found")) ∧
    (get_item simpleModel [[("id", .vInt 1), ("name", .vStr "foo")]] [("id", .vStr "abc")] =
      .error (.notFound "'MyModel(id=abc)' resource not found")) ∧
    (get_item simpleModel [] [("_raise_on_empty", .vBool false)] = .ok none) := by
  refine ⟨?_, by decide, by decide, by decide⟩
  intro params
  refine ⟨?_, rowLookup_pySetKey_self _ _ _, ?_⟩
  · rw [rowLookup_pySetKey_ne _ _ _ _ (by decide)]
    exact rowLookup_pySetKey_self _ _ _
  · intro hroe
    rw [rowLookup_pySetKey_ne _ _ _ _ (by decide),
      rowLookup_pySetKey_ne _ _ _ _ (by decide)]
    unfold pySetDefault
    rw [if_neg (by simp [hroe])]
    rw [rowLookup_append_right params _ _ (pyHasKey_false_forall params _ hroe)]
    simp [rowLookup, List.find?]

/-- C10 witness: the parameter-forcing conjunct at a concrete caller bag that
already carries a conflicting `_limit`. -/
theorem c10_witness :
    rowLookup (pySetKey (pySetKey (pySetDefault [("_limit", Value.vInt 50)]
        "_raise_on_empty" (.vBool true)) "_limit" (.vInt 1)) "_item_request"
        (.vBool true)) "_limit" = some (.vInt 1) :=
  (c10_get_item.1 [("_limit", Value.vInt 50)]).1

end NefertariSqla
